import Mathlib

/-!
Verification of the AlternativeScratchCloud synchronization engine.

Two shallow embeddings are developed, both translated directly from the
JavaScript sources:

* `CloudVars.CState` and its operations embed the per-variable-name state of
  `src/javascript_client.js` (the bookmarklet client without timestamps):
  `debounceUpdate`, the debounce timeout callback, `sendToServer` (split at its
  single `await` into a start phase and a response-processing phase),
  `monitor`, `pollServerForUpdates` (per snapshot entry) and `cloudVarsStop`.
  An inductive step relation `ClientStep` captures the reachable interleavings
  of host writes, detection ticks, debounce deadlines, poll ticks and
  network-call completions.

* `CloudVars.TSG` and its operations embed the timestamp-aware variant
  (first program of `src/unnamed/part_000`): association-list global state for
  `lastValues` (value and timestamp), the stage variables, `pendingUpdates`,
  the sent log, plus `sendToServer`, `initializeFromServer` (named
  `initFromServer` here) and the per-entry body of `pollServerForUpdates`.

Ghost fields (`inflight`, `sent`, `sentLog`, `pushes`, `fetchCount`) count
network calls, `vm.setVariableValue` invocations and snapshot fetches; they
are write-only instrumentation and never influence control flow.
-/

namespace CloudVars

/-- Result of one POST to the remote store, as read by
`src/javascript_client.js` (`data.success`, `data.newValue`,
`data.serverValue`).  `rejected none` models an absent or null
`serverValue`; `rejected (some "")` models the empty string, which is
falsy in JavaScript. -/
inductive Outcome where
  | success (newValue : String)
  | rejected (serverValue : Option String)
  | netFail
deriving DecidableEq

/-- Per-variable-name state of `src/javascript_client.js`.
`hostValue`/`hostTracked` model the Scratch stage variable (the host
collaborator); `lastValue` is `lastValues[name].value` (`none` when the
name is absent from `lastValues`); `pending` is membership in
`pendingUpdates`; `timer` is the `updateQueue` entry for the name, holding
the `setTimeout` id and the captured value; `cancelled` records every
timeout id passed to `clearTimeout`; `inited` is `isInitialized`;
`monitorOn`/`pollOn` record whether the two `setInterval` tasks are still
scheduled.  `inflight` (number of fetches currently awaited), `sent`
(values POSTed, most recent first) and `pushes` (count of
`vm.setVariableValue` calls) are ghost instrumentation. -/
structure CState where
  hostValue : String
  hostTracked : Bool
  lastValue : Option String
  pending : Bool
  inflight : Nat
  timer : Option (Nat × String)
  cancelled : List Nat
  nextId : Nat
  inited : Bool
  monitorOn : Bool
  pollOn : Bool
  sent : List String
  pushes : Nat
deriving DecidableEq

/-- `debounceUpdate(name, value)` from `src/javascript_client.js` lines
57-70: cancel the previous timeout for the name if one exists, then store
a fresh timeout (with its captured value) in `updateQueue`. -/
def debounceUpdate (s : CState) (v : String) : CState :=
  match s.timer with
  | some p =>
      { s with cancelled := p.1 :: s.cancelled,
               timer := some (s.nextId, v), nextId := s.nextId + 1 }
  | none =>
      { s with timer := some (s.nextId, v), nextId := s.nextId + 1 }

/-- Synchronous prefix of `sendToServer(name, value)` (lines 107-122): if
the name is already in `pendingUpdates` return without sending (`false`);
otherwise add it to `pendingUpdates` and issue the fetch (ghost `inflight`
and `sent` record the started call). -/
def sendToServerStart (s : CState) (v : String) : CState × Bool :=
  if s.pending then (s, false)
  else
    ({ s with pending := true, inflight := s.inflight + 1, sent := v :: s.sent }, true)

/-- Body of the debounce timeout callback (lines 62-67): invoke
`sendToServer` only when the name is not in `pendingUpdates`, then delete
the `updateQueue` entry. -/
def timeoutBody (s : CState) (v : String) : CState :=
  if s.pending then { s with timer := none }
  else { (sendToServerStart s v).1 with timer := none }

/-- Response-processing phase of `sendToServer` (lines 124-140): on
success adopt `data.newValue` into `lastValues`; on rejection, if the
variable is still tracked (`cloudVar`) and `data.serverValue` is truthy,
push the server value into the VM and adopt it into `lastValues`; on
network failure only log.  The `finally` clause always removes the name
from `pendingUpdates`. -/
def sendToServerFinish (s : CState) (o : Outcome) : CState :=
  let t :=
    match o with
    | .success nv => { s with lastValue := some nv }
    | .rejected sv =>
        if s.hostTracked = true then
          match sv with
          | some v =>
              if v = "" then s
              else { s with hostValue := v, lastValue := some v, pushes := s.pushes + 1 }
          | none => s
        else s
    | .netFail => s
  { t with pending := false, inflight := t.inflight - 1 }

/-- One detection tick of `monitor` (lines 144-170), projected to a single
name: skip untracked and pending names; record a brand-new name (and
debounce it when initialized); for a changed value, optimistically update
`lastValues` and debounce the new value. -/
def monitorName (s : CState) : CState :=
  if s.hostTracked = false then s
  else if s.pending = true then s
  else
    match s.lastValue with
    | none =>
        if s.inited = true then
          debounceUpdate { s with lastValue := some s.hostValue } s.hostValue
        else { s with lastValue := some s.hostValue }
    | some lv =>
        if s.inited = true ∧ s.hostValue ≠ lv then
          debounceUpdate { s with lastValue := some s.hostValue } s.hostValue
        else s

/-- One poll tick of `pollServerForUpdates` (lines 173-195), projected to
a single name whose snapshot entry carries value `rv`: no-op before
initialization; skip names in `pendingUpdates`; otherwise, if the variable
is tracked and its VM value differs from the server value, push the server
value into the VM and record it in `lastValues`. -/
def pollName (s : CState) (rv : String) : CState :=
  if s.inited = false then s
  else if s.pending = true then s
  else if s.hostTracked = true ∧ s.hostValue ≠ rv then
    { s with hostValue := rv, lastValue := some rv, pushes := s.pushes + 1 }
  else s

/-- `window.cloudVarsStop` (lines 205-212): clear both intervals, cancel
every outstanding debounce timeout, clear `updateQueue` and
`pendingUpdates`. -/
def cloudVarsStop (s : CState) : CState :=
  { s with monitorOn := false, pollOn := false,
           cancelled :=
             match s.timer with
             | some p => p.1 :: s.cancelled
             | none => s.cancelled,
           timer := none, pending := false }

/-- A post-bootstrap session state for one tracked name: host value "0"
recorded in `lastValues`, nothing pending, both intervals running. -/
def ClientInit : CState :=
  { hostValue := "0", hostTracked := true, lastValue := some "0", pending := false,
    inflight := 0, timer := none, cancelled := [], nextId := 0, inited := true,
    monitorOn := true, pollOn := true, sent := [], pushes := 0 }

/-- Small-step relation over the per-name client state: an environment
write to the host variable, one detection tick, the firing of a live
(uncancelled) debounce timeout, one poll tick delivering server value
`rv`, and the completion of an in-flight network call with some outcome. -/
inductive ClientStep : CState → CState → Prop where
  | hostWrite {s : CState} (v : String) : ClientStep s { s with hostValue := v }
  | monitorTick {s : CState} : s.monitorOn = true → ClientStep s (monitorName s)
  | timerFire {s : CState} (id : Nat) (v : String) :
      s.timer = some (id, v) → id ∉ s.cancelled → ClientStep s (timeoutBody s v)
  | pollTick {s : CState} (rv : String) : s.pollOn = true → ClientStep s (pollName s rv)
  | finish {s : CState} (o : Outcome) : 1 ≤ s.inflight → ClientStep s (sendToServerFinish s o)

/-- States reachable from the post-bootstrap session state. -/
def Reachable (s : CState) : Prop :=
  Relation.ReflTransGen ClientStep ClientInit s

lemma debounceUpdate_fields (s : CState) (v : String) :
    (debounceUpdate s v).pending = s.pending ∧
    (debounceUpdate s v).inflight = s.inflight ∧
    (debounceUpdate s v).sent = s.sent ∧
    (debounceUpdate s v).monitorOn = s.monitorOn ∧
    (debounceUpdate s v).pollOn = s.pollOn := by
  obtain ⟨hv, ht, lv, p, nf, tm, cl, ni, ii, mo, po, se, pu⟩ := s
  simp only [debounceUpdate]
  repeat' split
  all_goals and_intros
  all_goals trivial

lemma monitorName_fields (s : CState) :
    (monitorName s).pending = s.pending ∧
    (monitorName s).inflight = s.inflight ∧
    (monitorName s).sent = s.sent ∧
    (monitorName s).monitorOn = s.monitorOn ∧
    (monitorName s).pollOn = s.pollOn := by
  obtain ⟨hv, ht, lv, p, nf, tm, cl, ni, ii, mo, po, se, pu⟩ := s
  simp only [monitorName, debounceUpdate]
  repeat' split
  all_goals and_intros
  all_goals trivial

lemma pollName_fields (s : CState) (rv : String) :
    (pollName s rv).pending = s.pending ∧
    (pollName s rv).inflight = s.inflight ∧
    (pollName s rv).sent = s.sent ∧
    (pollName s rv).monitorOn = s.monitorOn ∧
    (pollName s rv).pollOn = s.pollOn ∧
    (pollName s rv).timer = s.timer := by
  obtain ⟨hv, ht, lv, p, nf, tm, cl, ni, ii, mo, po, se, pu⟩ := s
  simp only [pollName]
  repeat' split
  all_goals and_intros
  all_goals trivial

lemma sendToServerFinish_fields (s : CState) (o : Outcome) :
    (sendToServerFinish s o).pending = false ∧
    (sendToServerFinish s o).inflight = s.inflight - 1 ∧
    (sendToServerFinish s o).sent = s.sent ∧
    (sendToServerFinish s o).monitorOn = s.monitorOn ∧
    (sendToServerFinish s o).pollOn = s.pollOn ∧
    (sendToServerFinish s o).timer = s.timer := by
  obtain ⟨hv, ht, lv, p, nf, tm, cl, ni, ii, mo, po, se, pu⟩ := s
  cases o
  all_goals simp only [sendToServerFinish]
  all_goals repeat' split
  all_goals and_intros
  all_goals trivial

/-- The at-most-one-in-flight invariant: never more than one active
network call for the name, and an active call implies membership in
`pendingUpdates`. -/
def Inv (s : CState) : Prop :=
  s.inflight ≤ 1 ∧ (s.pending = false → s.inflight = 0)

lemma inv_init : Inv ClientInit := by
  constructor <;> simp [ClientInit]

lemma timeoutBody_of_pending (s : CState) (v : String) (h : s.pending = true) :
    timeoutBody s v = { s with timer := none } := by
  simp [timeoutBody, h]

lemma timeoutBody_of_not_pending (s : CState) (v : String) (h : s.pending = false) :
    timeoutBody s v =
      { s with timer := none, pending := true,
               inflight := s.inflight + 1, sent := v :: s.sent } := by
  simp [timeoutBody, sendToServerStart, h]

lemma inv_step {s t : CState} (h : Inv s) (hst : ClientStep s t) : Inv t := by
  obtain ⟨h1, h2⟩ := h
  cases hst with
  | hostWrite v => exact ⟨h1, h2⟩
  | monitorTick hg =>
      obtain ⟨hp, hi, -⟩ := monitorName_fields s
      exact ⟨hi ▸ h1, fun hf => hi ▸ h2 (hp ▸ hf)⟩
  | timerFire id v hT hC =>
      by_cases hp : s.pending = true
      · rw [timeoutBody_of_pending _ _ hp]
        exact ⟨h1, h2⟩
      · have hp2 : s.pending = false := by simpa using hp
        rw [timeoutBody_of_not_pending _ _ hp2]
        refine ⟨by simp [h2 hp2], fun hf => by simp at hf⟩
  | pollTick rv hg =>
      obtain ⟨hp, hi, -⟩ := pollName_fields s rv
      exact ⟨hi ▸ h1, fun hf => hi ▸ h2 (hp ▸ hf)⟩
  | finish o hI =>
      obtain ⟨hp, hi, -⟩ := sendToServerFinish_fields s o
      refine ⟨?_, fun _ => ?_⟩ <;> omega

lemma inv_reach {s : CState} (h : Reachable s) : Inv s := by
  induction h with
  | refl => exact inv_init
  | tail _ hstep ih => exact inv_step ih hstep

/-- Claim C1: at every reachable interleaving of host writes, detection
ticks, debounce deadlines, poll ticks and call completions, at most one
outbound write is in flight for the name; `sendToServer` returns without
sending when the name is already in `pendingUpdates`; an elapsed debounce
deadline does not invoke `sendToServer` while the name is pending (it only
deletes the queue entry); whenever a call is in flight the name is in
`pendingUpdates` (it was added before the call started); and response
processing removes the name exactly once — on success, rejection and
network failure alike. -/
theorem c1_at_most_one_in_flight : ∀ s : CState, Reachable s →
    s.inflight ≤ 1 ∧
    (1 ≤ s.inflight → s.pending = true) ∧
    (s.pending = true → ∀ v, sendToServerStart s v = (s, false)) ∧
    (s.pending = true → ∀ v, timeoutBody s v = { s with timer := none }) ∧
    (∀ o, (sendToServerFinish s o).pending = false ∧
          (sendToServerFinish s o).inflight = s.inflight - 1 ∧
          (sendToServerFinish s o).sent = s.sent) := by
  intro s hs
  obtain ⟨h1, h2⟩ := inv_reach hs
  refine ⟨h1, ?_, ?_, ?_, ?_⟩
  · intro hI
    cases hp : s.pending
    · exact absurd (h2 hp) (by omega)
    · rfl
  · intro hp v
    simp [sendToServerStart, hp]
  · intro hp v
    exact timeoutBody_of_pending s v hp
  · intro o
    obtain ⟨ha, hb, hc, -⟩ := sendToServerFinish_fields s o
    exact ⟨ha, hb, hc⟩

theorem c1_witness : ClientInit.inflight ≤ 1 :=
  (c1_at_most_one_in_flight ClientInit Relation.ReflTransGen.refl).1

lemma debounceUpdate_cancelled_mono (s : CState) (v : String) {i : Nat}
    (h : i ∈ s.cancelled) : i ∈ (debounceUpdate s v).cancelled := by
  unfold debounceUpdate
  cases s.timer <;> simp [h]

lemma debounceUpdate_timer (s : CState) (v : String) :
    (debounceUpdate s v).timer = some (s.nextId, v) ∧
    (debounceUpdate s v).nextId = s.nextId + 1 := by
  unfold debounceUpdate
  cases s.timer <;> simp

lemma debounceUpdate_cancels (s : CState) (v : String) {p : Nat × String}
    (h : s.timer = some p) : p.1 ∈ (debounceUpdate s v).cancelled := by
  unfold debounceUpdate
  rw [h]
  simp

/-- Folding a burst of `debounceUpdate` calls for one name: the single
surviving queue entry carries the last value, its timeout id is the
freshest, every superseded timeout was cancelled, and nothing was sent. -/
lemma debounce_foldl : ∀ (l : List String) (s : CState) (v : String),
    ((v :: l).foldl debounceUpdate s).timer =
      some (s.nextId + l.length, (v :: l).getLast (List.cons_ne_nil v l)) ∧
    ((v :: l).foldl debounceUpdate s).nextId = s.nextId + l.length + 1 ∧
    ((v :: l).foldl debounceUpdate s).pending = s.pending ∧
    ((v :: l).foldl debounceUpdate s).inflight = s.inflight ∧
    ((v :: l).foldl debounceUpdate s).sent = s.sent ∧
    (∀ i, i ∈ s.cancelled → i ∈ ((v :: l).foldl debounceUpdate s).cancelled) ∧
    (∀ p : Nat × String, s.timer = some p →
       p.1 ∈ ((v :: l).foldl debounceUpdate s).cancelled) ∧
    (∀ k, k < l.length → s.nextId + k ∈ ((v :: l).foldl debounceUpdate s).cancelled) := by
  intro l
  induction l with
  | nil =>
      intro s v
      obtain ⟨ht, hn⟩ := debounceUpdate_timer s v
      obtain ⟨hp, hi, hs, -⟩ := debounceUpdate_fields s v
      refine ⟨by simpa using ht, by simpa using hn, hp, hi, hs, ?_, ?_, ?_⟩
      · intro i hi2
        exact debounceUpdate_cancelled_mono s v hi2
      · intro p hp2
        exact debounceUpdate_cancels s v hp2
      · intro k hk
        simp at hk
  | cons v2 l2 ih =>
      intro s v
      have hfold : (v :: v2 :: l2).foldl debounceUpdate s =
          (v2 :: l2).foldl debounceUpdate (debounceUpdate s v) := rfl
      obtain ⟨ht1, hn1⟩ := debounceUpdate_timer s v
      obtain ⟨hp1, hi1, hs1, -⟩ := debounceUpdate_fields s v
      obtain ⟨ht2, hn2, hp2, hi2, hs2, hmono2, hcan2, hrange2⟩ :=
        ih (debounceUpdate s v) v2
      rw [hfold]
      have hlast : (v2 :: l2).getLast (List.cons_ne_nil v2 l2) =
          (v :: v2 :: l2).getLast (List.cons_ne_nil v (v2 :: l2)) :=
        (List.getLast_cons (List.cons_ne_nil v2 l2)).symm
      refine ⟨?_, ?_, ?_, ?_, ?_, ?_, ?_, ?_⟩
      · rw [ht2, hn1, hlast]
        simp [List.length_cons]
        omega
      · rw [hn2, hn1]
        simp [List.length_cons]
        omega
      · rw [hp2, hp1]
      · rw [hi2, hi1]
      · rw [hs2, hs1]
      · intro i hi3
        exact hmono2 i (debounceUpdate_cancelled_mono s v hi3)
      · intro p hp3
        exact hmono2 p.1 (debounceUpdate_cancels s v hp3)
      · intro k hk
        cases k with
        | zero =>
            have := hcan2 (s.nextId, v) ht1
            simpa using this
        | succ k2 =>
            have hk2 : k2 < l2.length := by
              simpa [List.length_cons, Nat.succ_lt_succ_iff] using hk
            have := hrange2 k2 hk2
            rw [hn1] at this
            have harith : s.nextId + 1 + k2 = s.nextId + (k2 + 1) := by omega
            rwa [harith] at this

/-- Claim C2: a burst of N >= 1 `debounceUpdate` calls for one name within
one coalescing window keeps at most one queue entry (the `timer` field),
whose value is the last scheduled one; every superseded timeout id is
cancelled; no network call is made during the window; and when the
deadline elapses with the name not pending, exactly one outbound call is
started, carrying the last value. -/
theorem c2_debounce_collapsing : ∀ (s : CState) (v : String) (l : List String),
    s.pending = false →
    (∃ id, ((v :: l).foldl debounceUpdate s).timer =
        some (id, (v :: l).getLast (List.cons_ne_nil v l))) ∧
    ((v :: l).foldl debounceUpdate s).sent = s.sent ∧
    timeoutBody ((v :: l).foldl debounceUpdate s)
        ((v :: l).getLast (List.cons_ne_nil v l)) =
      { (v :: l).foldl debounceUpdate s with
          timer := none, pending := true,
          inflight := s.inflight + 1,
          sent := (v :: l).getLast (List.cons_ne_nil v l) :: s.sent } ∧
    (∀ p : Nat × String, s.timer = some p →
       p.1 ∈ ((v :: l).foldl debounceUpdate s).cancelled) ∧
    (∀ k, k < l.length → s.nextId + k ∈ ((v :: l).foldl debounceUpdate s).cancelled) := by
  intro s v l hp
  obtain ⟨ht, hn, hpend, hinf, hsent, hmono, hcan, hrange⟩ := debounce_foldl l s v
  have hp2 : ((v :: l).foldl debounceUpdate s).pending = false := hpend.trans hp
  refine ⟨⟨s.nextId + l.length, ht⟩, hsent, ?_, hcan, hrange⟩
  rw [timeoutBody_of_not_pending _ _ hp2, hinf, hsent]

/-- Claim C6: applying the same snapshot entry twice through the poll
merge is idempotent — the second application is a no-op by the
`cloudVar.value !== value` equality check — and an effective first
application performs exactly one host mutation (`pushes` grows once and
only once). -/
theorem c6_inbound_idempotent : ∀ (s : CState) (rv : String),
    pollName (pollName s rv) rv = pollName s rv ∧
    (s.inited = true → s.pending = false → s.hostTracked = true → s.hostValue ≠ rv →
      (pollName s rv).pushes = s.pushes + 1 ∧
      (pollName (pollName s rv) rv).pushes = (pollName s rv).pushes) := by
  intro s rv
  by_cases hi : s.inited = false
  · constructor
    · simp [pollName, hi]
    · intro hii
      rw [hii] at hi
      simp at hi
  · by_cases hp : s.pending = true
    · constructor
      · simp [pollName, hi, hp]
      · intro _ hpf
        rw [hpf] at hp
        simp at hp
    · by_cases hc : s.hostTracked = true ∧ s.hostValue ≠ rv
      · refine ⟨?_, fun _ _ _ _ => ⟨?_, ?_⟩⟩ <;>
          simp [pollName, hi, hp, hc]
      · constructor
        · simp [pollName, hi, hp, hc]
        · intro h1 h2 h3 h4
          exact absurd ⟨h3, h4⟩ hc

theorem c6_witness :
    (pollName (pollName ClientInit "1") "1").pushes = (pollName ClientInit "1").pushes :=
  ((c6_inbound_idempotent ClientInit "1").2 rfl rfl rfl (by decide)).2

/-- Claim C7: in every reachable state, a poll tick leaves a name that is
in `pendingUpdates` completely untouched — the snapshot entry is skipped
before the VM is read or written. -/
theorem c7_poll_skips_pending : ∀ s : CState, Reachable s → s.pending = true →
    ∀ rv : String, pollName s rv = s := by
  intro s _ hp rv
  simp [pollName, hp]

/-- A concrete reachable state with an in-flight write for the name: the
host variable changed to "1", one detection tick scheduled the debounce
entry, and its deadline elapsed, starting the outbound call. -/
def c7state : CState :=
  timeoutBody (monitorName { ClientInit with hostValue := "1" }) "1"

theorem c7_witness : pollName c7state "9" = c7state :=
  c7_poll_skips_pending c7state
    (Relation.ReflTransGen.tail
      (Relation.ReflTransGen.tail
        (Relation.ReflTransGen.single (ClientStep.hostWrite "1"))
        (ClientStep.monitorTick (by decide)))
      (ClientStep.timerFire 0 "1" (by decide) (by decide)))
    (by decide) "9"

/-- The state after the in-flight write of `c7state` fails with a network
error: the pending entry is released, `lastValues` still holds the
optimistic value "1", and nothing was confirmed by the server. -/
def c8state : CState := sendToServerFinish c7state Outcome.netFail

/-- Claim C8 counterexample: after a network failure releases the pending
entry, the next detection tick is a strict no-op — `monitor` optimistically
set `lastValues` to "1" at detection time, so the unsent divergence is NOT
re-observed and nothing is routed to the debounce queue again (`timer`
stays `none`, the state is unchanged), contradicting the claim that the
divergence is re-observed and re-triggered. -/
theorem c8_counterexample :
    c8state.pending = false ∧ c8state.inflight = 0 ∧
    c8state.hostValue = "1" ∧ c8state.lastValue = some "1" ∧
    c8state.sent = ["1"] ∧ c8state.timer = none ∧
    monitorName c8state = c8state ∧ (monitorName c8state).timer = none := by
  decide

/-- Claim C8 (amended): when an outbound write fails with a network error
no exception escapes (the handler is total and only the `finally` release
runs), `lastValues` keeps the optimistic value recorded at detection time,
and no retry is scheduled; but the next detection tick does not re-route
the value to the debounce queue: because `monitor` already updated
`lastValues` optimistically, any state whose host value equals
`lastValues` is left unchanged by a detection tick, so the failed write is
re-sent only if the host value changes again. -/
theorem c8_netfail_no_retrigger : ∀ s : CState,
    sendToServerFinish s Outcome.netFail =
      { s with pending := false, inflight := s.inflight - 1 } ∧
    (∀ t : CState, t.lastValue = some t.hostValue → monitorName t = t) := by
  intro s
  constructor
  · simp [sendToServerFinish]
  · intro t ht
    simp [monitorName, ht]

theorem c8_witness : monitorName c8state = c8state :=
  (c8_netfail_no_retrigger ClientInit).2 c8state (by decide)

lemma stopped_step {a b : CState} (h1 : a.monitorOn = false) (h2 : a.timer = none)
    (hst : ClientStep a b) :
    b.monitorOn = false ∧ b.timer = none ∧ b.sent = a.sent := by
  cases hst with
  | hostWrite v => exact ⟨h1, h2, rfl⟩
  | monitorTick hg => simp [h1] at hg
  | timerFire id v hT hC => simp [h2] at hT
  | pollTick rv hg =>
      obtain ⟨-, -, hs, hm, -, ht⟩ := pollName_fields a rv
      exact ⟨hm.trans h1, ht.trans h2, hs⟩
  | finish o hI =>
      obtain ⟨-, -, hs, hm, -, ht⟩ := sendToServerFinish_fields a o
      exact ⟨hm.trans h1, ht.trans h2, hs⟩

lemma stopped_trace {a t : CState} (h1 : a.monitorOn = false) (h2 : a.timer = none)
    (htr : Relation.ReflTransGen ClientStep a t) :
    t.monitorOn = false ∧ t.timer = none ∧ t.sent = a.sent := by
  induction htr with
  | refl => exact ⟨h1, h2, rfl⟩
  | tail hab hbc ih =>
      obtain ⟨i1, i2, i3⟩ := ih
      obtain ⟨j1, j2, j3⟩ := stopped_step i1 i2 hbc
      exact ⟨j1, j2, j3.trans i3⟩

/-- Claim C9: `cloudVarsStop` is idempotent; afterwards both periodic
tasks are cancelled, any outstanding debounce timeout has been cancelled,
`updateQueue` and `pendingUpdates` are empty, and along every sequence of
subsequently elapsing steps no outbound write is ever issued (the ghost
`sent` log never grows). -/
theorem c9_stop_idempotent_and_quiescent : ∀ s : CState,
    cloudVarsStop (cloudVarsStop s) = cloudVarsStop s ∧
    (cloudVarsStop s).monitorOn = false ∧
    (cloudVarsStop s).pollOn = false ∧
    (cloudVarsStop s).timer = none ∧
    (cloudVarsStop s).pending = false ∧
    (∀ p : Nat × String, s.timer = some p → p.1 ∈ (cloudVarsStop s).cancelled) ∧
    (∀ t : CState, Relation.ReflTransGen ClientStep (cloudVarsStop s) t →
       t.sent = (cloudVarsStop s).sent) := by
  intro s
  refine ⟨?_, rfl, rfl, rfl, rfl, ?_, ?_⟩
  · unfold cloudVarsStop
    cases s.timer <;> rfl
  · intro p hp
    unfold cloudVarsStop
    rw [hp]
    simp
  · intro t htr
    exact (stopped_trace rfl rfl htr).2.2

theorem c9_witness :
    ({ cloudVarsStop ClientInit with hostValue := "7" } : CState).sent =
      (cloudVarsStop ClientInit).sent :=
  (c9_stop_idempotent_and_quiescent ClientInit).2.2.2.2.2.2 _
    (Relation.ReflTransGen.single (ClientStep.hostWrite "7"))

theorem c2_witness :
    timeoutBody ((("1" : String) :: ["2", "3"]).foldl debounceUpdate ClientInit)
        (("1" :: ["2", "3"]).getLast (List.cons_ne_nil "1" ["2", "3"])) =
      { ("1" :: ["2", "3"]).foldl debounceUpdate ClientInit with
          timer := none, pending := true,
          inflight := ClientInit.inflight + 1,
          sent := ("1" :: ["2", "3"]).getLast (List.cons_ne_nil "1" ["2", "3"]) :: ClientInit.sent } :=
  (c2_debounce_collapsing ClientInit "1" ["2", "3"] rfl).2.2.1

/-! ### Timestamp-aware variant (first program of `src/unnamed/part_000`) -/

/-- Result of one POST in the timestamp-aware variant: on success the
client reads `data.newValue` and `data.lastModified`; on rejection it
reads only `data.serverValue` — any server-side timestamp in the response
is never read by this code path, which is why it is carried here but
ignored by `tsgSendFinish`. -/
inductive TOutcome where
  | success (newValue : String) (lastModified : Nat)
  | rejected (serverValue : Option String) (serverStamp : Option Nat)
  | netFail
deriving DecidableEq

/-- First-match association-list lookup, modelling JavaScript object
access where the most recently written binding is placed at the front. -/
def alookup {α : Type} : List (String × α) → String → Option α
  | [], _ => none
  | p :: t, n => if p.1 = n then some p.2 else alookup t n

/-- Global state of the timestamp-aware client.  `host` is the stage's
tracked cloud variables (name, value); `last` is `lastValues`
(name, value, timestamp); `pending` is `pendingUpdates`; `inited` is
`isInitialized`.  `sentLog` (one entry per POST issued, most recent
first), `fetchCount` (snapshot GETs) and `pushes`
(`vm.setVariableValue` calls) are ghost instrumentation. -/
structure TSG where
  host : List (String × String)
  last : List (String × String × Nat)
  pending : List String
  inited : Bool
  sentLog : List (String × String)
  fetchCount : Nat
  pushes : Nat
deriving DecidableEq

/-- Response processing of `sendToServer` in `src/unnamed/part_000` lines
76-92: on success store `{value: data.newValue, timestamp: new
Date(data.lastModified)}`; on rejection, if `data.serverValue` is truthy,
look up the stage variable and push/adopt it with timestamp `Date.now()`
(`now`) — when the variable is no longer tracked the unguarded
`cloudVar.id` access throws and the outer catch swallows it, so nothing is
adopted; the `finally` clause always removes the name from
`pendingUpdates`. -/
def tsgSendFinish (g : TSG) (name : String) (o : TOutcome) (now : Nat) : TSG :=
  let t :=
    match o with
    | .success nv lm => { g with last := (name, nv, lm) :: g.last }
    | .rejected sv _ =>
        match sv with
        | some v =>
            if v = "" then g
            else
              match alookup g.host name with
              | some _ =>
                  { g with host := (name, v) :: g.host,
                           last := (name, v, now) :: g.last,
                           pushes := g.pushes + 1 }
              | none => g
        | none => g
    | .netFail => g
  { t with pending := t.pending.erase name }

/-- `sendToServer(name, value)` of `src/unnamed/part_000` lines 66-93:
fail fast when the name is in `pendingUpdates`; otherwise add it, POST the
value (logged in `sentLog`), then process the response. -/
def tsgSend (g : TSG) (name value : String) (o : TOutcome) (now : Nat) : TSG :=
  if name ∈ g.pending then g
  else
    tsgSendFinish
      { g with pending := name :: g.pending, sentLog := (name, value) :: g.sentLog }
      name o now

/-- Loop body of `initializeFromServer` (lines 104-116): a variable found
in the snapshot is force-adopted (VM write plus `lastValues` entry with
the snapshot's `lastModified`, no comparison); a variable absent from the
snapshot is seeded by `sendToServer` with the stage's current value. -/
def initStep (snap : List (String × String × Nat)) (oc : String → TOutcome) (now : Nat)
    (g : TSG) (nv : String × String) : TSG :=
  match alookup snap nv.1 with
  | some p =>
      { g with host := (nv.1, p.1) :: g.host,
               last := (nv.1, p.1, p.2) :: g.last,
               pushes := g.pushes + 1 }
  | none => tsgSend g nv.1 ((alookup g.host nv.1).getD nv.2) (oc nv.1) now

/-- `initializeFromServer` of `src/unnamed/part_000` lines 96-121: one
snapshot fetch (counted in `fetchCount`; `none` models a failed or
unsuccessful fetch, whose thrown error is caught after processing
nothing), then the per-variable loop over the stage's cloud variables, and
finally `isInitialized = true` in every case. -/
def initFromServer (g : TSG) (snap : Option (List (String × String × Nat)))
    (oc : String → TOutcome) (now : Nat) : TSG :=
  let g0 : TSG := { g with fetchCount := g.fetchCount + 1 }
  match snap with
  | none => { g0 with inited := true }
  | some snapL => { g0.host.foldl (initStep snapL oc now) g0 with inited := true }

/-- One snapshot entry processed by `pollServerForUpdates` (lines
145-155): `serverTime` is `new Date(serverVar.lastModified || Date.now())`
(a missing or zero — falsy — `lastModified` falls back to the local
clock); adopt when the name is absent from `lastValues` or `serverTime` is
greater than or equal to the recorded timestamp, and then only if the
variable is still tracked on the stage. -/
def tsgPollEntry (now : Nat) (g : TSG) (e : String × String × Option Nat) : TSG :=
  let serverTime : Nat :=
    match e.2.2 with
    | some t => if t = 0 then now else t
    | none => now
  let adopt : Bool :=
    match alookup g.last e.1 with
    | none => true
    | some p => decide (p.2 ≤ serverTime)
  if adopt then
    match alookup g.host e.1 with
    | some _ =>
        { g with host := (e.1, e.2.1) :: g.host,
                 last := (e.1, e.2.1, serverTime) :: g.last,
                 pushes := g.pushes + 1 }
    | none => g
  else g

/-- Outbound POSTs recorded for one name: the sent log filtered to that
name, most recent first. -/
def sentFor (log : List (String × String)) (n : String) : List (String × String) :=
  log.filter (fun p => p.1 == n)

lemma sentFor_cons_self (log : List (String × String)) (n : String) (u : String) :
    sentFor ((n, u) :: log) n = (n, u) :: sentFor log n := by
  simp [sentFor]

lemma sentFor_cons_ne (log : List (String × String)) (m u n : String) (h : m ≠ n) :
    sentFor ((m, u) :: log) n = sentFor log n := by
  simp [sentFor, h]

lemma alookup_cons_self {α : Type} (l : List (String × α)) (n : String) (v : α) :
    alookup ((n, v) :: l) n = some v := by
  simp [alookup]

lemma alookup_cons_ne {α : Type} (l : List (String × α)) (m : String) (v : α)
    (n : String) (h : m ≠ n) : alookup ((m, v) :: l) n = alookup l n := by
  simp [alookup, h]

lemma alookup_of_mem_nodup {α : Type} :
    ∀ (l : List (String × α)) (n : String) (v : α),
      (n, v) ∈ l → (l.map Prod.fst).Nodup → alookup l n = some v := by
  intro l
  induction l with
  | nil => intro n v hmem _; simp at hmem
  | cons p t ih =>
      intro n v hmem hnd
      rcases List.mem_cons.mp hmem with heq | hmem2
      · rw [← heq]
        exact alookup_cons_self t n v
      · have hn : n ∈ t.map Prod.fst := List.mem_map.mpr ⟨(n, v), hmem2, rfl⟩
        have hne : p.1 ≠ n := fun he => (List.nodup_cons.mp hnd).1 (he ▸ hn)
        have : alookup (p :: t) n = alookup t n := by
          obtain ⟨p1, p2⟩ := p
          exact alookup_cons_ne t p1 p2 n hne
        rw [this]
        exact ih n v hmem2 (List.nodup_cons.mp hnd).2

lemma tsgSendFinish_admin (g : TSG) (name : String) (o : TOutcome) (now : Nat) :
    (tsgSendFinish g name o now).pending = g.pending.erase name ∧
    (tsgSendFinish g name o now).sentLog = g.sentLog ∧
    (tsgSendFinish g name o now).fetchCount = g.fetchCount ∧
    (tsgSendFinish g name o now).inited = g.inited := by
  unfold tsgSendFinish
  cases o
  all_goals repeat' split
  all_goals and_intros
  all_goals rfl

lemma tsgSendFinish_other (g : TSG) (name : String) (o : TOutcome) (now : Nat)
    (n : String) (h : n ≠ name) :
    alookup (tsgSendFinish g name o now).host n = alookup g.host n ∧
    alookup (tsgSendFinish g name o now).last n = alookup g.last n := by
  unfold tsgSendFinish
  cases o
  all_goals repeat' split
  all_goals constructor
  all_goals first
    | rfl
    | exact alookup_cons_ne _ _ _ _ (Ne.symm h)

lemma tsgSend_admin (g : TSG) (name value : String) (o : TOutcome) (now : Nat) :
    (tsgSend g name value o now).fetchCount = g.fetchCount ∧
    (tsgSend g name value o now).inited = g.inited := by
  unfold tsgSend
  split
  · exact ⟨rfl, rfl⟩
  · exact ⟨(tsgSendFinish_admin _ name o now).2.2.1,
           (tsgSendFinish_admin _ name o now).2.2.2⟩

lemma tsgSend_pending_nil (g : TSG) (name value : String) (o : TOutcome) (now : Nat)
    (hp : g.pending = []) : (tsgSend g name value o now).pending = [] := by
  unfold tsgSend
  split
  · exact hp
  · rw [(tsgSendFinish_admin _ name o now).1]
    show (name :: g.pending).erase name = []
    rw [hp]
    simp

lemma tsgSend_sentFor_self (g : TSG) (name value : String) (o : TOutcome) (now : Nat)
    (hp : name ∉ g.pending) :
    sentFor (tsgSend g name value o now).sentLog name =
      (name, value) :: sentFor g.sentLog name := by
  unfold tsgSend
  rw [if_neg hp, (tsgSendFinish_admin _ name o now).2.1]
  exact sentFor_cons_self _ _ _

lemma tsgSend_other (g : TSG) (name value : String) (o : TOutcome) (now : Nat)
    (n : String) (h : n ≠ name) :
    alookup (tsgSend g name value o now).host n = alookup g.host n ∧
    alookup (tsgSend g name value o now).last n = alookup g.last n ∧
    sentFor (tsgSend g name value o now).sentLog n = sentFor g.sentLog n := by
  unfold tsgSend
  split
  · exact ⟨rfl, rfl, rfl⟩
  · obtain ⟨hh, hl⟩ := tsgSendFinish_other _ name o now n h
    refine ⟨hh, hl, ?_⟩
    rw [(tsgSendFinish_admin _ name o now).2.1]
    exact sentFor_cons_ne _ _ _ _ (Ne.symm h)

lemma initStep_admin (snap : List (String × String × Nat)) (oc : String → TOutcome)
    (now : Nat) (g : TSG) (nv : String × String) (hp : g.pending = []) :
    (initStep snap oc now g nv).pending = [] ∧
    (initStep snap oc now g nv).fetchCount = g.fetchCount ∧
    (initStep snap oc now g nv).inited = g.inited := by
  unfold initStep
  split
  · exact ⟨hp, rfl, rfl⟩
  · exact ⟨tsgSend_pending_nil _ _ _ _ _ hp, (tsgSend_admin _ _ _ _ _).1,
           (tsgSend_admin _ _ _ _ _).2⟩

lemma initStep_other (snap : List (String × String × Nat)) (oc : String → TOutcome)
    (now : Nat) (g : TSG) (nv : String × String) (n : String) (h : n ≠ nv.1) :
    alookup (initStep snap oc now g nv).host n = alookup g.host n ∧
    alookup (initStep snap oc now g nv).last n = alookup g.last n ∧
    sentFor (initStep snap oc now g nv).sentLog n = sentFor g.sentLog n := by
  unfold initStep
  split
  · exact ⟨alookup_cons_ne _ _ _ _ (Ne.symm h), alookup_cons_ne _ _ _ _ (Ne.symm h), rfl⟩
  · exact tsgSend_other _ _ _ _ _ n h

lemma initStep_found (snap : List (String × String × Nat)) (oc : String → TOutcome)
    (now : Nat) (g : TSG) (nv : String × String) (p : String × Nat)
    (hsnap : alookup snap nv.1 = some p) :
    alookup (initStep snap oc now g nv).host nv.1 = some p.1 ∧
    alookup (initStep snap oc now g nv).last nv.1 = some p ∧
    sentFor (initStep snap oc now g nv).sentLog nv.1 = sentFor g.sentLog nv.1 := by
  unfold initStep
  rw [hsnap]
  exact ⟨alookup_cons_self _ _ _, alookup_cons_self _ _ _, rfl⟩

lemma initStep_absent (snap : List (String × String × Nat)) (oc : String → TOutcome)
    (now : Nat) (g : TSG) (nv : String × String) (v : String)
    (hsnap : alookup snap nv.1 = none) (hp : nv.1 ∉ g.pending)
    (hv : alookup g.host nv.1 = some v) :
    sentFor (initStep snap oc now g nv).sentLog nv.1 =
      (nv.1, v) :: sentFor g.sentLog nv.1 := by
  unfold initStep
  rw [hsnap, hv]
  exact tsgSend_sentFor_self g nv.1 _ (oc nv.1) now hp

lemma initFold_untouched (snap : List (String × String × Nat)) (oc : String → TOutcome)
    (now : Nat) :
    ∀ (vs : List (String × String)) (g : TSG) (m : String),
      g.pending = [] → m ∉ vs.map Prod.fst →
      alookup (vs.foldl (initStep snap oc now) g).host m = alookup g.host m ∧
      alookup (vs.foldl (initStep snap oc now) g).last m = alookup g.last m ∧
      sentFor (vs.foldl (initStep snap oc now) g).sentLog m = sentFor g.sentLog m := by
  intro vs
  induction vs with
  | nil => intro g m _ _; exact ⟨rfl, rfl, rfl⟩
  | cons nv vs2 ih =>
      intro g m hp hm
      simp only [List.map_cons, List.mem_cons, not_or] at hm
      obtain ⟨hm1, hm2⟩ := hm
      have ha := initStep_admin snap oc now g nv hp
      have ho := initStep_other snap oc now g nv m hm1
      have hfold := ih (initStep snap oc now g nv) m ha.1 hm2
      exact ⟨hfold.1.trans ho.1, hfold.2.1.trans ho.2.1, hfold.2.2.trans ho.2.2⟩

lemma initFold_admin (snap : List (String × String × Nat)) (oc : String → TOutcome)
    (now : Nat) :
    ∀ (vs : List (String × String)) (g : TSG), g.pending = [] →
      (vs.foldl (initStep snap oc now) g).pending = [] ∧
      (vs.foldl (initStep snap oc now) g).fetchCount = g.fetchCount ∧
      (vs.foldl (initStep snap oc now) g).inited = g.inited := by
  intro vs
  induction vs with
  | nil => intro g hp; exact ⟨hp, rfl, rfl⟩
  | cons nv vs2 ih =>
      intro g hp
      have ha := initStep_admin snap oc now g nv hp
      have hfold := ih (initStep snap oc now g nv) ha.1
      exact ⟨hfold.1, hfold.2.1.trans ha.2.1, hfold.2.2.trans ha.2.2⟩

lemma initFold_mem (snap : List (String × String × Nat)) (oc : String → TOutcome)
    (now : Nat) :
    ∀ (vs : List (String × String)) (g : TSG) (n v : String),
      g.pending = [] → (vs.map Prod.fst).Nodup → (n, v) ∈ vs →
      alookup g.host n = some v →
      (∀ p : String × Nat, alookup snap n = some p →
         alookup (vs.foldl (initStep snap oc now) g).host n = some p.1 ∧
         alookup (vs.foldl (initStep snap oc now) g).last n = some p ∧
         sentFor (vs.foldl (initStep snap oc now) g).sentLog n = sentFor g.sentLog n) ∧
      (alookup snap n = none →
         sentFor (vs.foldl (initStep snap oc now) g).sentLog n =
           (n, v) :: sentFor g.sentLog n) := by
  intro vs
  induction vs with
  | nil => intro g n v _ _ hmem _; simp at hmem
  | cons nv vs2 ih =>
      intro g n v hp hnd hmem hv
      rcases List.mem_cons.mp hmem with heq | hmem2
      · subst heq
        rw [List.map_cons] at hnd
        have hnotin : n ∉ vs2.map Prod.fst := (List.nodup_cons.mp hnd).1
        have ha := initStep_admin snap oc now g (n, v) hp
        have hu := initFold_untouched snap oc now vs2 (initStep snap oc now g (n, v)) n
          ha.1 hnotin
        constructor
        · intro p hsnap
          have hf := initStep_found snap oc now g (n, v) p hsnap
          exact ⟨hu.1.trans hf.1, hu.2.1.trans hf.2.1, hu.2.2.trans hf.2.2⟩
        · intro hsnap
          have hab := initStep_absent snap oc now g (n, v) v hsnap (by rw [hp]; simp) hv
          exact hu.2.2.trans hab
      · rw [List.map_cons] at hnd
        have hsplit := List.nodup_cons.mp hnd
        have hnmem : n ∈ vs2.map Prod.fst := List.mem_map.mpr ⟨(n, v), hmem2, rfl⟩
        have hne : n ≠ nv.1 := by
          intro he
          exact hsplit.1 (he ▸ hnmem)
        have ha := initStep_admin snap oc now g nv hp
        have ho := initStep_other snap oc now g nv n hne
        have hv2 : alookup (initStep snap oc now g nv).host n = some v := ho.1.trans hv
        have hnd2 : (vs2.map Prod.fst).Nodup := hsplit.2
        have hrec := ih (initStep snap oc now g nv) n v ha.1 hnd2 hmem2 hv2
        constructor
        · intro p hsnap
          obtain ⟨x1, x2, x3⟩ := hrec.1 p hsnap
          exact ⟨x1, x2, x3.trans ho.2.2⟩
        · intro hsnap
          have x := hrec.2 hsnap
          rw [ho.2.2] at x
          exact x

/-- Claim C4: on a successful bootstrap the client fetches the snapshot
exactly once; every tracked variable found in the snapshot is
force-adopted (host value and `lastValues` take the snapshot's value and
timestamp, with no comparison and no outbound write for that name); every
tracked variable absent from the snapshot produces exactly one outbound
write carrying its local value (whatever the write's outcome); and the
`isInitialized` flag is set when bootstrap completes. -/
theorem c4_bootstrap_contract : ∀ (g : TSG) (snapL : List (String × String × Nat))
    (oc : String → TOutcome) (now : Nat),
    g.pending = [] → (g.host.map Prod.fst).Nodup →
    (initFromServer g (some snapL) oc now).fetchCount = g.fetchCount + 1 ∧
    (initFromServer g (some snapL) oc now).inited = true ∧
    (∀ n v : String, (n, v) ∈ g.host →
      (∀ p : String × Nat, alookup snapL n = some p →
         alookup (initFromServer g (some snapL) oc now).host n = some p.1 ∧
         alookup (initFromServer g (some snapL) oc now).last n = some p ∧
         sentFor (initFromServer g (some snapL) oc now).sentLog n =
           sentFor g.sentLog n) ∧
      (alookup snapL n = none →
         sentFor (initFromServer g (some snapL) oc now).sentLog n =
           (n, v) :: sentFor g.sentLog n)) := by
  intro g snapL oc now hp hnd
  have hadmin := initFold_admin snapL oc now g.host
    { g with fetchCount := g.fetchCount + 1 } hp
  refine ⟨hadmin.2.1, rfl, ?_⟩
  intro n v hmem
  have hv : alookup g.host n = some v := alookup_of_mem_nodup g.host n v hmem hnd
  exact initFold_mem snapL oc now g.host { g with fetchCount := g.fetchCount + 1 }
    n v hp hnd hmem hv

/-- Bootstrap witness setup: CloudA and CloudB are tracked locally with
values "5" and "3"; the snapshot knows only CloudA. -/
def c4g : TSG :=
  { host := [("CloudA", "5"), ("CloudB", "3")], last := [], pending := [],
    inited := false, sentLog := [], fetchCount := 0, pushes := 0 }

def c4snap : List (String × String × Nat) := [("CloudA", "8", 44)]

def c4oc : String → TOutcome := fun _ => TOutcome.success "3" 99

theorem c4_witness :
    sentFor (initFromServer c4g (some c4snap) c4oc 7).sentLog "CloudB" =
      ("CloudB", "3") :: sentFor c4g.sentLog "CloudB" :=
  ((c4_bootstrap_contract c4g c4snap c4oc 7 rfl (by decide)).2.2 "CloudB" "3"
    (by decide)).2 (by decide)

/-- A state with an in-flight rejected write: local optimistic value "1"
with timestamp 10 for the tracked variable CloudX. -/
def c3g : TSG :=
  { host := [("CloudX", "1")], last := [("CloudX", "1", 10)],
    pending := ["CloudX"], inited := true,
    sentLog := [("CloudX", "1")], fetchCount := 1, pushes := 0 }

/-- Claim C3 counterexample: the store rejects the write for CloudX and
declares value "7" with timestamp 50, while the local clock reads 200 at
processing time.  The code stores `Date.now()` — 200 — as the adopted
timestamp, not the server-declared timestamp 50, so after processing
`lastValues` does not hold V2/T2 as the claim states. -/
theorem c3_counterexample :
    alookup (tsgSendFinish c3g "CloudX" (TOutcome.rejected (some "7") (some 50)) 200).last
        "CloudX" = some ("7", 200) ∧
    alookup (tsgSendFinish c3g "CloudX" (TOutcome.rejected (some "7") (some 50)) 200).last
        "CloudX" ≠ some ("7", 50) := by
  decide

/-- Claim C3 (amended): when the store rejects an outbound write and
declares a (truthy) server value for a still-tracked variable, the client
pushes the server value to the host and adopts it into `lastValues` — but
the recorded timestamp is the local adoption-time clock (`Date.now()`),
not the server-declared timestamp, which the rejection handler never
reads.  The pending entry is released as always. -/
theorem c3_remote_wins_value_local_stamp :
    ∀ (g : TSG) (name v : String) (st : Option Nat) (now : Nat),
    v ≠ "" → (alookup g.host name).isSome = true →
    tsgSendFinish g name (TOutcome.rejected (some v) st) now =
      { g with host := (name, v) :: g.host,
               last := (name, v, now) :: g.last,
               pushes := g.pushes + 1,
               pending := g.pending.erase name } := by
  intro g name v st now hv hs
  cases h : alookup g.host name with
  | none => rw [h] at hs; simp at hs
  | some p => simp [tsgSendFinish, hv, h]

theorem c3_witness :
    tsgSendFinish c3g "CloudX" (TOutcome.rejected (some "7") (some 50)) 200 =
      { c3g with host := ("CloudX", "7") :: c3g.host,
                 last := ("CloudX", "7", 200) :: c3g.last,
                 pushes := c3g.pushes + 1,
                 pending := c3g.pending.erase "CloudX" } :=
  c3_remote_wins_value_local_stamp c3g "CloudX" "7" (some 50) 200 (by decide) (by decide)

/-- Claim C5: for a snapshot entry whose name is not pending and is still
tracked on the stage, carrying a (non-falsy) remote timestamp `rt`: if the
name is missing from `lastValues` or `rt` is greater than or equal to the
recorded timestamp, the poll merge adopts the remote value into
`lastValues` and pushes it to the host; if `rt` is strictly smaller,
the state is unchanged. -/
theorem c5_poll_merge : ∀ (g : TSG) (name rv : String) (rt now : Nat),
    g.inited = true → name ∉ g.pending → (alookup g.host name).isSome = true → rt ≠ 0 →
    ((alookup g.last name = none ∨
        (∃ p : String × Nat, alookup g.last name = some p ∧ p.2 ≤ rt)) →
       tsgPollEntry now g (name, rv, some rt) =
         { g with host := (name, rv) :: g.host,
                  last := (name, rv, rt) :: g.last,
                  pushes := g.pushes + 1 }) ∧
    (∀ p : String × Nat, alookup g.last name = some p → rt < p.2 →
       tsgPollEntry now g (name, rv, some rt) = g) := by
  intro g name rv rt now hi hp hs hrt
  obtain ⟨q, hq⟩ := Option.isSome_iff_exists.mp hs
  constructor
  · intro hcond
    rcases hcond with h0 | ⟨p, hp1, hp2⟩
    · simp [tsgPollEntry, h0, hq, hrt]
    · simp [tsgPollEntry, hp1, hp2, hq, hrt]
  · intro p hp1 hlt
    have hnle : ¬ p.2 ≤ rt := by omega
    simp [tsgPollEntry, hp1, hrt, hnle]

/-- A quiescent initialized state for the poll-merge witness: CloudX is
tracked with local value "1" at timestamp 10 and nothing pending. -/
def c5g : TSG :=
  { host := [("CloudX", "1")], last := [("CloudX", "1", 10)],
    pending := [], inited := true, sentLog := [], fetchCount := 1, pushes := 0 }

theorem c5_witness :
    tsgPollEntry 999 c5g ("CloudX", "9", some 70) =
      { c5g with host := ("CloudX", "9") :: c5g.host,
                 last := ("CloudX", "9", 70) :: c5g.last,
                 pushes := c5g.pushes + 1 } :=
  (c5_poll_merge c5g "CloudX" "9" 70 999 rfl (by decide) (by decide) (by decide)).1
    (Or.inr ⟨("1", 10), by decide, by decide⟩)

/-- A state with an in-flight write for CloudY, used to witness the
pending-release-only behaviour of a rejection without a server value. -/
def c10g : TSG :=
  { host := [("CloudY", "4")], last := [("CloudY", "4", 3)],
    pending := ["CloudY"], inited := true,
    sentLog := [("CloudY", "4")], fetchCount := 1, pushes := 0 }

/-- Claim C10: a rejection whose `serverValue` is not truthy (absent, null
— both `none` here — or the empty string) adopts nothing in either
client: the host variable, `lastValues` (value and, in the timestamp
variant, timestamp) are untouched, and the only effect of the response
processing is the release of the `pendingUpdates` entry. -/
theorem c10_reject_without_server_value : ∀ (s : CState) (g : TSG) (name : String)
    (sv : Option String) (st : Option Nat) (now : Nat),
    sv = none ∨ sv = some "" →
    sendToServerFinish s (Outcome.rejected sv) =
      { s with pending := false, inflight := s.inflight - 1 } ∧
    tsgSendFinish g name (TOutcome.rejected sv st) now =
      { g with pending := g.pending.erase name } := by
  intro s g name sv st now h
  rcases h with h | h <;> subst h <;> constructor <;>
    simp [sendToServerFinish, tsgSendFinish]

theorem c10_witness :
    sendToServerFinish ClientInit (Outcome.rejected (some "")) =
      { ClientInit with pending := false, inflight := ClientInit.inflight - 1 } ∧
    tsgSendFinish c10g "CloudY" (TOutcome.rejected (some "") none) 5 =
      { c10g with pending := c10g.pending.erase "CloudY" } :=
  c10_reject_without_server_value ClientInit c10g "CloudY" (some "") none 5 (Or.inr rfl)

end CloudVars
